import Mathlib

/-!
Verification development for `parseidf.py`: a shallow embedding of the
IDF tokenizer (PLY lex rules), the yacc grammar, and the `extract_zones`
geometry pass, together with theorems settling the specification claims.

Modelling conventions:
* Python strings are `String` / `List Char`; `float` values are modelled as
  exact rationals (`Rat`), which is faithful on the decimal literals the
  claims exercise (no binary rounding is ever observable in them).
* Python exceptions become `Except` values; `ValueError` and `IndexError`
  are distinguished because `extract_zones` catches only `ValueError`.
* Python dicts (insertion ordered, unique keys) become association lists
  with insert-or-overwrite-in-place (`dictSet`) and `setdefault`-append
  (`dictAppend`) operations.
-/

deriving instance DecidableEq for Except

namespace ParseIdf

/-! ## Python string primitives

`str.strip()` and `str.upper()`, defined over character lists so that they
evaluate by kernel reduction.  `pyStrip` removes the ASCII whitespace
characters Python strips; `pyUpper` upcases ASCII letters (the inputs the
claims exercise are ASCII, where both agree with Python). -/

/-- The ASCII whitespace characters removed by Python's `str.strip()`. -/
def isPyWs (c : Char) : Bool :=
  c == ' ' || c == '\t' || c == '\n' || c == '\r' || c == '\x0b' || c == '\x0c'

/-- Python `s.strip()`: drop leading and trailing whitespace. -/
def pyStrip (s : String) : String :=
  String.mk (((s.data.dropWhile isPyWs).reverse.dropWhile isPyWs).reverse)

/-- Upcase one ASCII letter. -/
def pyUpperChar (c : Char) : Char :=
  if 'a' ≤ c ∧ c ≤ 'z' then Char.ofNat (c.toNat - 32) else c

/-- Python `s.upper()` (ASCII). -/
def pyUpper (s : String) : String := String.mk (s.data.map pyUpperChar)

/-! ## Tokens and lexer errors -/

/-- A lexical token: `VALUE` (raw matched text, untrimmed), `COMMA`, `SEMICOLON`.
Mirrors the PLY token list `('VALUE', 'COMMA', 'SEMICOLON')`. -/
inductive Tok where
  | value (s : String)
  | comma
  | semicolon
deriving DecidableEq, Repr

/-- The `SyntaxError` raised by `t_error`: offending character and the lexer's
current line number. -/
structure LexErr where
  ch : Char
  line : Nat
deriving DecidableEq, Repr

/-- Horizontal whitespace, the character class `[ \t]` of the PLY rules. -/
def isHws (c : Char) : Bool := c == ' ' || c == '\t'

/-- Length of the maximal `[ \t]*` run at the head of `cs`. -/
def hwsLen (cs : List Char) : Nat := (cs.takeWhile isHws).length

/-- Characters matched by `[ \t\r\n]`, the leading class of `t_COMMENT`. -/
def isCommentWs (c : Char) : Bool := isHws c || c == '\r' || c == '\n'

/-- Number of characters consumed at the head of `cs` by a match of
`t_COMMENT`'s regex `[ \t\r\n]*!.*` (Python `.` does not match `\n`), or
`none` if the regex does not match here.  Backtracking the leading `*` is
irrelevant: every character it can absorb differs from `!`. -/
def matchComment (cs : List Char) : Option Nat :=
  let w := (cs.takeWhile isCommentWs).length
  match cs.drop w with
  | '!' :: r => some (w + 1 + (r.takeWhile (fun c => c != '\n')).length)
  | _ => none

/-- Characters consumed by a greedy match of `(\r?\n)+` at the head of the
list: each iteration is `\n` or `\r\n`; a lone `\r` stops the repetition. -/
def nlRun : List Char → Nat
  | '\n' :: r => 1 + nlRun r
  | '\r' :: '\n' :: r => 2 + nlRun r
  | _ => 0

/-- Number of characters consumed by `t_newline`'s regex `[ \t]*(\r?\n)+`,
or `none` if it does not match here. -/
def matchNewline (cs : List Char) : Option Nat :=
  let w := hwsLen cs
  let k := nlRun (cs.drop w)
  if k == 0 then none else some (w + k)

/-- Character class of the body of `t_VALUE`'s regex
`[ \t]*([^!,;\n]|[*])+[ \t]*`: everything except `!`, `,`, `;` and `\n`
(the `[*]` alternative is subsumed). -/
def isValueChar (c : Char) : Bool := !(c == '!' || c == ',' || c == ';' || c == '\n')

/-- A match of `t_VALUE` at the head of `cs`.  Because `[ \t]` is contained
in `[^!,;\n]`, the regex (with Python's greedy backtracking) matches exactly
the maximal nonempty run of non-`!,;\n` characters; the returned string is
the raw matched text (`t.value`). -/
def matchValue (cs : List Char) : Option (Nat × String) :=
  let run := cs.takeWhile isValueChar
  if run.length == 0 then none else some (run.length, String.mk run)

/-- A match of `t_COMMA` / `t_SEMICOLON` (`[ \t]*,[ \t]*` resp.
`[ \t]*;[ \t]*`) at the head of `cs`: returns the consumed length. -/
def matchSep (sep : Char) (cs : List Char) : Option Nat :=
  let w := hwsLen cs
  match cs.drop w with
  | c :: r => if c = sep then some (w + 1 + hwsLen r) else none
  | _ => none

/-- One pass of the PLY master regex: rules are tried in definition order
(`t_COMMENT`, `t_newline`, `t_VALUE`), then the string rules
(`t_COMMA`, `t_SEMICOLON`); the first alternative that matches wins.
Besides the token stream, the final value of `t.lexer.lineno` is returned,
so that line counting is observable.

Line counting reproduces the source exactly:
* `t_COMMENT` sets `t.lineno` on the *discarded token* (not
  `t.lexer.lineno`), so a comment advances nothing;
* `t_newline` does `t.lexer.lineno += len(t.value)`, i.e. it adds the full
  match length, including leading `[ \t]` characters and `\r`s.

Note that `t_error` is dead code: `t_VALUE`'s class `[^!,;\n]` accepts every
character not matched by the other rules, so no input can raise the lexer's
`SyntaxError`; the `LexErr` result below is kept for structural fidelity.

`fuel` only forces termination; every successful rule consumes at least one
character, so the initial fuel `cs.length + 1` used by `lexString` is never
exhausted, and the fuel-out result (`LexErr` with line `0`, a line number no
real error can carry, since lines start at `1`) is unreachable from
`lexString`. -/
def lexRun : Nat → List Char → Nat → Except LexErr (List Tok) × Nat
  | 0, _, _ => (.error ⟨'\x00', 0⟩, 0)
  | fuel + 1, cs, line =>
    match cs with
    | [] => (.ok [], line)
    | c :: _ =>
      match matchComment cs with
      | some n => lexRun fuel (cs.drop n) line
      | none =>
        match matchNewline cs with
        | some n => lexRun fuel (cs.drop n) (line + n)
        | none =>
          match matchValue cs with
          | some (n, v) =>
            match lexRun fuel (cs.drop n) line with
            | (.ok ts, l) => (.ok (Tok.value v :: ts), l)
            | (.error e, l) => (.error e, l)
          | none =>
            match matchSep ',' cs with
            | some n =>
              match lexRun fuel (cs.drop n) line with
              | (.ok ts, l) => (.ok (Tok.comma :: ts), l)
              | (.error e, l) => (.error e, l)
            | none =>
              match matchSep ';' cs with
              | some n =>
                match lexRun fuel (cs.drop n) line with
                | (.ok ts, l) => (.ok (Tok.semicolon :: ts), l)
                | (.error e, l) => (.error e, l)
              | none => (.error ⟨c, line⟩, line)

/-- Tokenize a whole input, starting (as PLY does) at line 1. -/
def lexString (s : String) : Except LexErr (List Tok) :=
  (lexRun (s.data.length + 1) s.data 1).1

/-- The lexer's line counter after consuming the whole input (the value of
`lexer.lineno` once tokenization is done). -/
def lexFinalLine (s : String) : Nat :=
  (lexRun (s.data.length + 1) s.data 1).2

/-! ## Grammar engine -/

/-- The `SyntaxError` raised by `p_error` (no payload modelled). -/
inductive PErr where
  | parseError
deriving DecidableEq, Repr

/-- An object record: the type name followed by its field values, each
stripped (`p_objectname` / `p_valuelist` apply `.strip()`). -/
abbrev ObjectRecord := List String

/-- The parsed-IDF mapping: uppercased type name to the records of that
type, in insertion order (a Python dict of lists). -/
abbrev ObjectMapping := List (String × List ObjectRecord)

/-- Recursive-descent equivalent of the yacc rules, inside one object after
its `objectname` token: `fields` holds the name and the values seen so far
in reverse.  A `SEMICOLON` closes the object
(`idfobject : objectname SEMICOLON | objectname COMMA valuelist SEMICOLON`);
if tokens remain they must start the next object
(`idfobjectlist : idfobject | idfobject idfobjectlist`); a `COMMA` must be
followed by a further `VALUE` (`valuelist : VALUE | VALUE COMMA valuelist`).
Any other shape is the grammar's error case (`p_error` raises). -/
def parseLoop (fields : List String) : List Tok → Except PErr (List ObjectRecord)
  | [Tok.semicolon] => .ok [fields.reverse]
  | Tok.semicolon :: Tok.value v :: rest =>
    match parseLoop [pyStrip v] rest with
    | .ok objs => .ok (fields.reverse :: objs)
    | .error e => .error e
  | Tok.comma :: Tok.value v :: rest => parseLoop (pyStrip v :: fields) rest
  | _ => .error .parseError

/-- The list of object records recognized from a token stream: one or more
objects, each beginning with a `VALUE` token (its `objectname`).  The empty
token stream is a parse error (the grammar derives at least one
`idfobject`). -/
def parseObjList : List Tok → Except PErr (List ObjectRecord)
  | Tok.value v :: rest => parseLoop [pyStrip v] rest
  | _ => .error .parseError

/-- The uppercased grouping key of a record, `idfobject[0].upper()` in
`p_idffile` (records produced by the grammar are never empty, so the
default never fires). -/
def keyOf (r : ObjectRecord) : String := pyUpper (r.headD "")

/-- `result.setdefault(key, []).append(r)` on an insertion-ordered dict:
append `r` to the existing entry for `key`, or add a new `(key, [r])`
entry at the end. -/
def dictAppend (m : ObjectMapping) (key : String) (r : ObjectRecord) : ObjectMapping :=
  match m with
  | [] => [(key, [r])]
  | (k, rs) :: rest =>
    if k = key then (k, rs ++ [r]) :: rest else (k, rs) :: dictAppend rest key r

/-- `p_idffile`: group the recognized objects by uppercased type name,
first-to-last. -/
def groupRecords (objs : List ObjectRecord) : ObjectMapping :=
  objs.foldl (fun m r => dictAppend m (keyOf r) r) []

/-- Dict lookup on the mapping (Python `parsed_idf.get(key)`), first entry
with the given key. -/
def mlookup (m : ObjectMapping) (k : String) : Option (List ObjectRecord) :=
  match m with
  | [] => none
  | (k', rs) :: rest => if k' = k then some rs else mlookup rest k

/-- An error of the whole `parse` entry point: the lexer's `SyntaxError`
or the grammar's. -/
inductive IdfErr where
  | lexError (e : LexErr)
  | parseError
deriving DecidableEq, Repr

/-- The `parse` entry point: tokenize, run the grammar, group by uppercased
name.  (The model tokenizes eagerly where PLY pulls tokens lazily; the two
differ only in which error is reported on an input that is doubly invalid,
and since the lexer can never fail, not even there.) -/
def parse (s : String) : Except IdfErr ObjectMapping :=
  match lexString s with
  | .error e => .error (IdfErr.lexError e)
  | .ok toks =>
    match parseObjList toks with
    | .error _ => .error IdfErr.parseError
    | .ok objs => .ok (groupRecords objs)

/-! ## Python number decoding

`float(...)` / `int(...)` as used by `extract_zones`.  Floats are modelled
exactly, as rationals: the model accepts the decimal-literal grammar
`[sign] (digits [. digits] | . digits) [(e|E) [sign] digits]` after
stripping surrounding whitespace, and rejects everything else with
`ValueError`.  (Python's `float` additionally accepts `inf`/`nan` spellings
and digit-group underscores, which no claim exercises; its binary rounding
is not observable in any claim, all of which use small exact decimals.) -/

/-- The numeric value of a digit run, most significant first. -/
def digitsToNat (ds : List Char) : Nat :=
  ds.foldl (fun a c => a * 10 + (c.toNat - 48)) 0

/-- The exact rational value of a parsed float literal: sign, integer
digits, fractional digits, decimal exponent.  Writing the digit runs
side by side, the value is `sign * digits(ip ++ fr) * 10 ^ ex / 10 ^ |fr|`,
built with `mkRat` so that it evaluates by kernel reduction. -/
def floatVal (sgn : Int) (ip fr : List Char) (ex : Int) : Rat :=
  let n : Int := sgn * (digitsToNat (ip ++ fr) : Int)
  if 0 ≤ ex then mkRat (n * (10 : Int) ^ ex.toNat) ((10 : Nat) ^ fr.length)
  else mkRat n ((10 : Nat) ^ (fr.length + (-ex).toNat))

/-- Parse the exponent tail (after `e`/`E`): optional sign, then at least
one digit, then end of string. -/
def pyFloatExp (sgn : Int) (ip fr : List Char) (cs : List Char) : Option Rat :=
  let (es, cs1) : Int × List Char :=
    match cs with
    | '+' :: r => (1, r)
    | '-' :: r => (-1, r)
    | _ => (1, cs)
  let ds := cs1.takeWhile Char.isDigit
  if ds.isEmpty then none
  else if (cs1.drop ds.length).isEmpty then some (floatVal sgn ip fr (es * digitsToNat ds))
  else none

/-- Parse a float literal from a character list (whitespace already
stripped): sign, digits, optional fractional part, optional exponent;
at least one digit must occur before the exponent. -/
def pyFloatAux (cs : List Char) : Option Rat :=
  let (sgn, cs1) : Int × List Char :=
    match cs with
    | '+' :: r => (1, r)
    | '-' :: r => (-1, r)
    | _ => (1, cs)
  let ip := cs1.takeWhile Char.isDigit
  let cs2 := cs1.drop ip.length
  let (fr, cs3) : List Char × List Char :=
    match cs2 with
    | '.' :: r => (r.takeWhile Char.isDigit, r.drop (r.takeWhile Char.isDigit).length)
    | _ => ([], cs2)
  if ip.isEmpty && fr.isEmpty then none
  else
    match cs3 with
    | [] => some (floatVal sgn ip fr 0)
    | 'e' :: r => pyFloatExp sgn ip fr r
    | 'E' :: r => pyFloatExp sgn ip fr r
    | _ => none

/-- Python `float(s)`: `none` models `ValueError`. -/
def pyFloat (s : String) : Option Rat := pyFloatAux (pyStrip s).data

/-- Python `int(s)` on the strings this program feeds it: optional sign and
a nonempty digit run (underscores etc. not modelled; the only call site
passes the literal `"4"`). `none` models `ValueError`. -/
def pyInt (s : String) : Option Int :=
  let core : List Char → Option Nat := fun ds =>
    if ds.isEmpty then none
    else if ds.all Char.isDigit then some (digitsToNat ds) else none
  match (pyStrip s).data with
  | '+' :: ds => (core ds).map Int.ofNat
  | '-' :: ds => (core ds).map (fun n => -(n : Int))
  | ds => (core ds).map Int.ofNat

/-! ## Zone/surface extractor -/

/-- A Python exception of `extract_zones`: `float`/`int`/`list.index`
raise `ValueError`, subscripting a too-short list raises `IndexError`.
The surface loop's `except` clause catches only `ValueError`. -/
inductive PyErr where
  | valueError
  | indexError
deriving DecidableEq, Repr

/-- The per-zone value `{"origin": (x, y, z), "surfaces": [...]}`. -/
structure ZoneGeometry where
  origin : Rat × Rat × Rat
  surfaces : List (List (Rat × Rat × Rat))
deriving DecidableEq, Repr

/-- The `zones` dict of `extract_zones`, insertion ordered. -/
abbrev Zones := List (String × ZoneGeometry)

/-- Dict lookup in `zones` (also the membership test `zone_name in zones`). -/
def zlookup (zs : Zones) (n : String) : Option ZoneGeometry :=
  match zs with
  | [] => none
  | (k, g) :: rest => if k = n then some g else zlookup rest n

/-- Dict assignment `zones[n] = g`: overwrite the existing entry in place,
or append a new one. -/
def dictSet (zs : Zones) (n : String) (g : ZoneGeometry) : Zones :=
  match zs with
  | [] => [(n, g)]
  | (k, g') :: rest =>
    if k = n then (k, g) :: rest else (k, g') :: dictSet rest n g

/-- `zones[n]["surfaces"].append(p)`: extend the surface list of every
entry keyed `n` (there is at most one). -/
def zappendSurface (zs : Zones) (n : String) (p : List (Rat × Rat × Rat)) : Zones :=
  zs.map fun e => if e.1 = n then (e.1, ⟨e.2.origin, e.2.surfaces ++ [p]⟩) else e

/-- Python `lst[i]` for a `Nat` index: `IndexError` when out of range. -/
def pyIndexE (l : List String) (i : Nat) : Except PyErr String :=
  match l.get? i with
  | some v => .ok v
  | none => .error .indexError

/-- Python `lst.index(x)`: index of the first occurrence (`none` models the
`ValueError` raised when `x` is absent). -/
def pyListIndex (l : List String) (x : String) : Option Nat :=
  match l with
  | [] => none
  | a :: r => if a = x then some 0 else (pyListIndex r x).map (· + 1)

/-- `float(s)` as an `Except`: `ValueError` on failure. -/
def floatE (s : String) : Except PyErr Rat :=
  match pyFloat s with
  | some q => .ok q
  | none => .error .valueError

/-- `int(s)` as an `Except`: `ValueError` on failure. -/
def intE (s : String) : Except PyErr Int :=
  match pyInt s with
  | some n => .ok n
  | none => .error .valueError

/-- `parsed_idf.get(key, [])`. -/
def pyGet (m : ObjectMapping) (k : String) : List ObjectRecord :=
  (mlookup m k).getD []

/-- The body of the ZONE loop for one record, evaluated in the source's
order: `zone[1]`, then `float(zone[3])`, `float(zone[4])`, `float(zone[5])`.
No exception is caught here: any failure propagates out of
`extract_zones`. -/
def decodeZone (r : ObjectRecord) : Except PyErr (String × (Rat × Rat × Rat)) :=
  match pyIndexE r 1 with
  | .error e => .error e
  | .ok n =>
    match pyIndexE r 3 with
    | .error e => .error e
    | .ok s3 =>
      match floatE s3 with
      | .error e => .error e
      | .ok x =>
        match pyIndexE r 4 with
        | .error e => .error e
        | .ok s4 =>
          match floatE s4 with
          | .error e => .error e
          | .ok y =>
            match pyIndexE r 5 with
            | .error e => .error e
            | .ok s5 =>
              match floatE s5 with
              | .error e => .error e
              | .ok z => .ok (n, (x, y, z))

/-- The ZONE loop: `zones[zone_name] = {"origin": ..., "surfaces": []}`
for each record in order, starting from the dict built so far. -/
def buildZonesFrom (zs : Zones) : List ObjectRecord → Except PyErr Zones
  | [] => .ok zs
  | r :: rest =>
    match decodeZone r with
    | .error e => .error e
    | .ok (n, o) => buildZonesFrom (dictSet zs n ⟨o, []⟩) rest

/-- One `(x, y, z)` triple at fields `j`, `j+1`, `j+2`, evaluated in source
order (subscript, then `float`, coordinate by coordinate). -/
def readVertex (s : ObjectRecord) (j : Nat) : Except PyErr (Rat × Rat × Rat) :=
  match pyIndexE s j with
  | .error e => .error e
  | .ok xs =>
    match floatE xs with
    | .error e => .error e
    | .ok x =>
      match pyIndexE s (j + 1) with
      | .error e => .error e
      | .ok ys =>
        match floatE ys with
        | .error e => .error e
        | .ok y =>
          match pyIndexE s (j + 2) with
          | .error e => .error e
          | .ok zs =>
            match floatE zs with
            | .error e => .error e
            | .ok z => .ok (x, y, z)

/-- The vertex loop `for i in range(n)`: the `i`-th triple starts at
`start + i * 3`. -/
def readVertices (s : ObjectRecord) (start : Nat) : Nat → Except PyErr (List (Rat × Rat × Rat))
  | 0 => .ok []
  | k + 1 =>
    match readVertex s start with
    | .error e => .error e
    | .ok v =>
      match readVertices s (start + 3) k with
      | .error e => .error e
      | .ok vs => .ok (v :: vs)

/-- The `try` block of the surface loop: find the first field equal to the
literal `"4"` (`surface.index('4')`, `ValueError` if absent), parse it as
the vertex count, and read that many coordinate triples from the fields
that follow. -/
def surfacePolygon (s : ObjectRecord) : Except PyErr (List (Rat × Rat × Rat)) :=
  match pyListIndex s "4" with
  | none => .error .valueError
  | some numIdx =>
    match pyIndexE s numIdx with
    | .error e => .error e
    | .ok cntS =>
      match intE cntS with
      | .error e => .error e
      | .ok n => readVertices s (numIdx + 1) n.toNat

/-- One iteration of the surface loop: read `surface[4]` (uncaught
`IndexError` if the record is shorter), skip the record if the zone is
unknown, otherwise run the `try` block — its `except ValueError` prints and
continues, while an `IndexError` escapes and aborts the extraction. -/
def processSurface (zs : Zones) (s : ObjectRecord) : Except PyErr Zones :=
  match pyIndexE s 4 with
  | .error e => .error e
  | .ok zn =>
    if (zlookup zs zn).isSome then
      match surfacePolygon s with
      | .ok p => .ok (zappendSurface zs zn p)
      | .error .valueError => .ok zs
      | .error .indexError => .error .indexError
    else
      .ok zs

/-- The surface loop over all `BUILDINGSURFACE:DETAILED` records. -/
def processSurfaces (zs : Zones) : List ObjectRecord → Except PyErr Zones
  | [] => .ok zs
  | s :: rest =>
    match processSurface zs s with
    | .ok zs' => processSurfaces zs' rest
    | .error e => .error e

/-- `extract_zones(parsed_idf)`: build the zone dict from the `ZONE`
records, then attach polygons from the `BUILDINGSURFACE:DETAILED`
records. -/
def extract_zones (m : ObjectMapping) : Except PyErr Zones :=
  match buildZonesFrom [] (pyGet m "ZONE") with
  | .error e => .error e
  | .ok zs => processSurfaces zs (pyGet m "BUILDINGSURFACE:DETAILED")

/-! ## Helper lemmas -/

/-- If some record of the ZONE list fails to decode, the ZONE loop (which
catches nothing) ends in an exception. -/
theorem buildZonesFrom_error_of_mem (rs : List ObjectRecord) :
    ∀ (zs : Zones) (r : ObjectRecord) (e : PyErr),
      r ∈ rs → decodeZone r = .error e → ∃ e', buildZonesFrom zs rs = .error e' := by
  induction rs with
  | nil => intro zs r e h _; cases h
  | cons a rest ih =>
    intro zs r e hmem hdec
    cases hd : decodeZone a with
    | error e0 => exact ⟨e0, by simp [buildZonesFrom, hd]⟩
    | ok p =>
      obtain ⟨n, o⟩ := p
      rcases List.mem_cons.mp hmem with rfl | hmem2
      · rw [hd] at hdec; cases hdec
      · obtain ⟨e', he'⟩ := ih (dictSet zs n ⟨o, []⟩) r e hmem2 hdec
        exact ⟨e', by simp [buildZonesFrom, hd, he']⟩

/-- A valid index yields the `getD` value. -/
theorem pyIndexE_ok_of_lt (l : List String) (i : Nat) (h : i < l.length) :
    pyIndexE l i = .ok (l.getD i "") := by
  cases hv : l.get? i with
  | none => exact absurd (List.get?_eq_none.mp hv) (by omega)
  | some v =>
    have hv' : l[i]? = some v := by simpa using hv
    simp [pyIndexE, hv, hv']

/-! ## Claims -/

/-- C1, counterexample: the first ZONE record has the non-numeric origin
field `"abc"`, so `extract_zones` raises `ValueError` as a whole instead of
skipping that record: the well-formed zone `Z2` is not returned either. -/
theorem extract_zones_zone_failure_aborts_cex :
    extract_zones
        [("ZONE", [["ZONE", "Z1", "x", "abc", "2.0", "3.0"],
                   ["ZONE", "Z2", "x", "1.0", "2.0", "3.0"]])] =
      .error PyErr.valueError := by decide

/-- C1 (amended): a decoding failure in a ZONE record (non-numeric origin
field, or a record too short for the name/origin subscripts) is *not*
caught: it aborts the whole extraction, and no mapping is returned. -/
theorem extract_zones_zone_failure_aborts (m : ObjectMapping) (r : ObjectRecord) (e : PyErr)
    (hmem : r ∈ pyGet m "ZONE") (hdec : decodeZone r = .error e) :
    ∃ e', extract_zones m = .error e' := by
  obtain ⟨e', he'⟩ := buildZonesFrom_error_of_mem _ [] r e hmem hdec
  exact ⟨e', by simp [extract_zones, he']⟩

/-- C1, witness for the amended theorem at a concrete mapping. -/
theorem extract_zones_zone_failure_aborts_witness :
    ∃ e', extract_zones [("ZONE", [["ZONE", "Z1", "x", "abc", "2.0", "3.0"]])] =
      .error e' :=
  extract_zones_zone_failure_aborts
    [("ZONE", [["ZONE", "Z1", "x", "abc", "2.0", "3.0"]])]
    ["ZONE", "Z1", "x", "abc", "2.0", "3.0"] PyErr.valueError
    (by decide) (by decide)

/-- C2, counterexample: a surface of a known zone declaring the count `4`
but with only 4 trailing fields after it raises an uncaught `IndexError`
that aborts the whole extraction, rather than a per-surface error. -/
theorem surface_decode_error_scoping_cex :
    extract_zones
        [("ZONE", [["ZONE", "Z1", "x", "0.0", "0.0", "0.0"]]),
         ("BUILDINGSURFACE:DETAILED",
          [["BUILDINGSURFACE:DETAILED", "S1", "Wall", "c", "Z1", "4",
            "0.0", "0.0", "0.0", "1.0"]])] =
      .error PyErr.indexError := by decide

/-- C2 (amended): for a surface record naming a known zone, a non-numeric
vertex field or an absent vertex-count field raises `ValueError`, which is
caught for that surface alone — nothing is appended and processing
continues with the next record; but too few trailing fields raise
`IndexError`, which escapes the `except ValueError` handler and aborts the
whole extraction. -/
theorem surface_decode_error_scoping (zs : Zones) (s : ObjectRecord)
    (rest : List ObjectRecord) (zn : String)
    (h4 : pyIndexE s 4 = .ok zn) (hk : (zlookup zs zn).isSome = true) :
    (surfacePolygon s = .error .valueError →
      processSurfaces zs (s :: rest) = processSurfaces zs rest) ∧
    (surfacePolygon s = .error .indexError →
      processSurfaces zs (s :: rest) = .error .indexError) := by
  constructor <;> intro hp <;> simp [processSurfaces, processSurface, h4, hk, hp]

/-- C2, witness at a concrete zone dict and surface record (count field
absent: `list.index('4')` raises `ValueError`, so the record is skipped). -/
theorem surface_decode_error_scoping_witness :
    (surfacePolygon ["BUILDINGSURFACE:DETAILED", "S1", "Wall", "c", "Z1"] =
        .error .valueError →
      processSurfaces [("Z1", ⟨(0, 0, 0), []⟩)]
          [["BUILDINGSURFACE:DETAILED", "S1", "Wall", "c", "Z1"]] =
        processSurfaces [("Z1", ⟨(0, 0, 0), []⟩)] []) ∧
    (surfacePolygon ["BUILDINGSURFACE:DETAILED", "S1", "Wall", "c", "Z1"] =
        .error .indexError →
      processSurfaces [("Z1", ⟨(0, 0, 0), []⟩)]
          [["BUILDINGSURFACE:DETAILED", "S1", "Wall", "c", "Z1"]] =
        .error .indexError) :=
  surface_decode_error_scoping [("Z1", ⟨(0, 0, 0), []⟩)]
    ["BUILDINGSURFACE:DETAILED", "S1", "Wall", "c", "Z1"] [] "Z1"
    (by decide) (by decide)

/-- C3, counterexample: the grammar has no production for an empty field,
so the spec's example input `ZONE,Z1,,1.0,2.0,3.0;` (two adjacent commas)
does not parse at all — no record, hence no zone `Z1`, results from it. -/
theorem zone_fields_decoded_cex :
    parse "ZONE,Z1,,1.0,2.0,3.0;" = .error IdfErr.parseError := by decide

/-- C3 (amended): `extract_zones` takes the record's 2nd element as the
zone name and decodes elements 4–6 (1-indexed over the whole record, i.e.
indices 3–5) as the origin; since empty fields do not parse, the
end-to-end example must carry a non-empty 3rd field: from
`ZONE,Z1,x,1.0,2.0,3.0;` the zone `Z1` gets origin `(1, 2, 3)` and an
empty surface list. -/
theorem zone_fields_decoded (r : ObjectRecord) (x y z : Rat)
    (hlen : 6 ≤ r.length)
    (hx : pyFloat (r.getD 3 "") = some x)
    (hy : pyFloat (r.getD 4 "") = some y)
    (hz : pyFloat (r.getD 5 "") = some z) :
    decodeZone r = .ok (r.getD 1 "", (x, y, z)) ∧
    parse "ZONE,Z1,x,1.0,2.0,3.0;" =
      .ok [("ZONE", [["ZONE", "Z1", "x", "1.0", "2.0", "3.0"]])] ∧
    extract_zones [("ZONE", [["ZONE", "Z1", "x", "1.0", "2.0", "3.0"]])] =
      .ok [("Z1", ⟨(1, 2, 3), []⟩)] := by
  refine ⟨?_, by decide, by decide⟩
  have h1 := pyIndexE_ok_of_lt r 1 (by omega)
  have h3 := pyIndexE_ok_of_lt r 3 (by omega)
  have h4 := pyIndexE_ok_of_lt r 4 (by omega)
  have h5 := pyIndexE_ok_of_lt r 5 (by omega)
  simp only [List.getD_eq_getElem?_getD] at hx hy hz
  simp [decodeZone, h1, h3, h4, h5, floatE, hx, hy, hz]

/-- C3, witness for the amended theorem at the example record. -/
theorem zone_fields_decoded_witness :
    decodeZone ["ZONE", "Z1", "x", "1.0", "2.0", "3.0"] =
      .ok ((["ZONE", "Z1", "x", "1.0", "2.0", "3.0"] : ObjectRecord).getD 1 "", (1, 2, 3)) ∧
    parse "ZONE,Z1,x,1.0,2.0,3.0;" =
      .ok [("ZONE", [["ZONE", "Z1", "x", "1.0", "2.0", "3.0"]])] ∧
    extract_zones [("ZONE", [["ZONE", "Z1", "x", "1.0", "2.0", "3.0"]])] =
      .ok [("Z1", ⟨(1, 2, 3), []⟩)] :=
  zone_fields_decoded ["ZONE", "Z1", "x", "1.0", "2.0", "3.0"] 1 2 3
    (by decide) (by decide) (by decide) (by decide)

/-- C4: a surface record whose 5th element names an unknown zone is
skipped entirely — the zone dict built from the ZONE records is unchanged,
no error is raised, and processing continues with the remaining surface
records. -/
theorem surface_unknown_zone_skipped (zrecs : List ObjectRecord) (zs : Zones)
    (s : ObjectRecord) (rest : List ObjectRecord) (zn : String)
    (_hb : buildZonesFrom [] zrecs = .ok zs)
    (h4 : pyIndexE s 4 = .ok zn) (hu : zlookup zs zn = none) :
    processSurfaces zs (s :: rest) = processSurfaces zs rest := by
  simp [processSurfaces, processSurface, h4, hu]

/-- C4, witness at a concrete mapping: the surface names `ZX`, only `Z1`
exists. -/
theorem surface_unknown_zone_skipped_witness :
    processSurfaces [("Z1", ⟨(0, 0, 0), []⟩)]
        [["BUILDINGSURFACE:DETAILED", "S1", "Wall", "c", "ZX"]] =
      processSurfaces [("Z1", ⟨(0, 0, 0), []⟩)] [] :=
  surface_unknown_zone_skipped [["ZONE", "Z1", "x", "0.0", "0.0", "0.0"]]
    [("Z1", ⟨(0, 0, 0), []⟩)]
    ["BUILDINGSURFACE:DETAILED", "S1", "Wall", "c", "ZX"] [] "ZX"
    (by decide) (by decide) (by decide)

/-- C5: the line counter does not equal one plus the newlines consumed.
`t_newline` adds the full match length (`len(t.value)`), so after
`A;\r\n` — a single newline — the counter is 3, not 2; and `t_COMMENT`
advances only the discarded token's `lineno`, so in `A;\n!c\nB;` the
newline absorbed into the comment match never advances the counter, which
ends at 2 instead of 3. -/
theorem lexer_line_count_bug :
    lexFinalLine "A;\r\nB;" = 3 ∧ lexFinalLine "A;\n!c\nB;" = 2 := by decide

/-- C6, counterexample: the grammar derives one-or-more objects, so the
empty input is a `ParseError`, not an empty mapping. -/
theorem parse_empty_input_cex :
    parse "" = .error IdfErr.parseError := by decide

/-- C6 (amended): the grammar accepts one-or-more objects: inputs with no
object production (empty, a lone comment, pure whitespace) fail with
`ParseError`, while a single object parses to a singleton mapping. -/
theorem parse_requires_one_object :
    parse "" = .error IdfErr.parseError ∧
    parse "! only a comment" = .error IdfErr.parseError ∧
    parse " \n" = .error IdfErr.parseError ∧
    parse "A;" = .ok [("A", [["A"]])] := by decide

/-- Join for the grouping characterization: what lookup returns once the
records in `l` (those of the looked-up key) have been appended behind an
existing entry `o`. -/
def joinOpt (o : Option (List ObjectRecord)) (l : List ObjectRecord) :
    Option (List ObjectRecord) :=
  match o, l with
  | some rs, l => some (rs ++ l)
  | none, [] => none
  | none, l => some l

theorem joinOpt_none_nil : joinOpt none [] = none := rfl

theorem joinOpt_none_cons (a : ObjectRecord) (l : List ObjectRecord) :
    joinOpt none (a :: l) = some (a :: l) := rfl

theorem joinOpt_some (rs l : List ObjectRecord) :
    joinOpt (some rs) l = some (rs ++ l) := rfl

theorem joinOpt_nil (o : Option (List ObjectRecord)) : joinOpt o [] = o := by
  cases o <;> simp [joinOpt]

/-- Lookup after one `setdefault`-append: the record lands at the end of
its key's list, other keys are untouched. -/
theorem mlookup_dictAppend (m : ObjectMapping) (key : String) (r : ObjectRecord)
    (k : String) :
    mlookup (dictAppend m key r) k =
      if key = k then some ((mlookup m k).getD [] ++ [r]) else mlookup m k := by
  induction m with
  | nil =>
    by_cases h : key = k <;> simp [dictAppend, mlookup, h]
  | cons e rest ih =>
    obtain ⟨k0, rs⟩ := e
    by_cases h1 : k0 = key
    · subst h1
      by_cases h2 : k0 = k
      · subst h2; simp [dictAppend, mlookup]
      · simp [dictAppend, mlookup, h2]
    · by_cases h2 : k0 = k
      · subst h2
        have hkey : ¬ key = k0 := fun h => h1 h.symm
        simp [dictAppend, mlookup, h1, hkey]
      · simp [dictAppend, mlookup, h1, h2, ih]

/-- Lookup in the grouping fold, with an arbitrary starting dict: the
records of key `k` among `objs` are appended, in input order, behind
whatever the start already holds for `k`. -/
theorem mlookup_groupFold (objs : List ObjectRecord) :
    ∀ (m : ObjectMapping) (k : String),
      mlookup (objs.foldl (fun m r => dictAppend m (keyOf r) r) m) k =
        joinOpt (mlookup m k) (objs.filter (fun r => keyOf r == k)) := by
  induction objs with
  | nil => intro m k; simp [joinOpt_nil]
  | cons a rest ih =>
    intro m k
    rw [List.foldl_cons, ih, mlookup_dictAppend]
    by_cases hk : keyOf a = k
    · rw [if_pos hk]
      have hf : (a :: rest).filter (fun r => keyOf r == k) =
          a :: rest.filter (fun r => keyOf r == k) := by
        simp [List.filter_cons, hk]
      rw [hf]
      cases ho : mlookup m k with
      | none => simp [joinOpt_none_cons, joinOpt_some]
      | some rs => simp [joinOpt_some]
    · rw [if_neg hk]
      have hf : (a :: rest).filter (fun r => keyOf r == k) =
          rest.filter (fun r => keyOf r == k) := by
        simp [List.filter_cons, hk]
      rw [hf]

/-- C7: on every accepted input, the mapping is the grouping of the parsed
records, and looking up any key returns exactly the records whose
uppercased first field equals that key, in first-to-last input order (the
records themselves case-preserved); under every other key a record does
not appear. -/
theorem parse_groups_records_by_upper_name (s : String) (m : ObjectMapping)
    (h : parse s = .ok m) :
    ∃ objs : List ObjectRecord,
      m = groupRecords objs ∧
      ∀ k : String,
        mlookup m k =
          if (objs.filter (fun r => keyOf r == k)).isEmpty then none
          else some (objs.filter (fun r => keyOf r == k)) := by
  unfold parse at h
  cases hl : lexString s with
  | error e => simp only [hl] at h; exact Except.noConfusion h
  | ok toks =>
    simp only [hl] at h
    cases hp : parseObjList toks with
    | error e => simp only [hp] at h; exact Except.noConfusion h
    | ok objs =>
      simp only [hp] at h
      injection h with h2
      refine ⟨objs, h2.symm, fun k => ?_⟩
      rw [← h2]
      unfold groupRecords
      rw [mlookup_groupFold]
      cases hf : objs.filter (fun r => keyOf r == k) with
      | nil => simp [mlookup, joinOpt_none_nil]
      | cons a l => simp [mlookup, joinOpt_none_cons]

/-- C7, witness on `a;A,b;`: both records group, in input order, under the
single uppercased key `A`. -/
theorem parse_groups_records_by_upper_name_witness :
    ∃ objs : List ObjectRecord,
      [("A", [["a"], ["A", "b"]])] = groupRecords objs ∧
      ∀ k : String,
        mlookup [("A", [["a"], ["A", "b"]])] k =
          if (objs.filter (fun r => keyOf r == k)).isEmpty then none
          else some (objs.filter (fun r => keyOf r == k)) :=
  parse_groups_records_by_upper_name "a;A,b;" [("A", [["a"], ["A", "b"]])] (by decide)

/-- A successful vertex loop returns exactly as many triples as it was
asked for. -/
theorem readVertices_length (n : Nat) :
    ∀ (s : ObjectRecord) (st : Nat) (vs : List (Rat × Rat × Rat)),
      readVertices s st n = .ok vs → vs.length = n := by
  induction n with
  | zero =>
    intro s st vs h
    injection h with h2
    rw [← h2]; rfl
  | succ k ih =>
    intro s st vs h
    unfold readVertices at h
    cases hv : readVertex s st with
    | error e => simp only [hv] at h; exact Except.noConfusion h
    | ok v =>
      simp only [hv] at h
      cases hr : readVertices s (st + 3) k with
      | error e => simp only [hr] at h; exact Except.noConfusion h
      | ok vs' =>
        simp only [hr] at h
        injection h with h2
        rw [← h2]
        simp [ih s (st + 3) vs' hr]

/-- `list.index` returns the position of an occurrence of the sought
string. -/
theorem pyListIndex_get (l : List String) (x : String) :
    ∀ i, pyListIndex l x = some i → l.get? i = some x := by
  induction l with
  | nil => intro i h; exact Option.noConfusion h
  | cons a r ih =>
    intro i h
    by_cases ha : a = x
    · subst ha
      simp [pyListIndex] at h
      rw [← h]; rfl
    · have hdef : pyListIndex (a :: r) x = (pyListIndex r x).map (· + 1) := by
        simp [pyListIndex, ha]
      rw [hdef] at h
      cases hr : pyListIndex r x with
      | none => rw [hr] at h; exact Option.noConfusion h
      | some j =>
        rw [hr] at h
        simp at h
        rw [← h]
        exact ih j hr

/-- Every polygon the `try` block returns has exactly 4 vertices: the
count field found by `surface.index('4')` holds the literal `"4"`. -/
theorem surfacePolygon_length (s : ObjectRecord) (p : List (Rat × Rat × Rat))
    (h : surfacePolygon s = .ok p) : p.length = 4 := by
  unfold surfacePolygon at h
  cases hi : pyListIndex s "4" with
  | none => simp only [hi] at h; exact Except.noConfusion h
  | some i =>
    simp only [hi] at h
    have hg : s.get? i = some "4" := pyListIndex_get s "4" i hi
    have hidx : pyIndexE s i = .ok "4" := by unfold pyIndexE; rw [hg]
    simp only [hidx] at h
    have hint : intE "4" = .ok (4 : Int) := by decide
    simp only [hint] at h
    exact readVertices_length 4 s (i + 1) p h

/-- The length-4 invariant over a whole zone dict. -/
def polysOk (zs : Zones) : Prop :=
  ∀ e ∈ zs, ∀ p ∈ e.2.surfaces, p.length = 4

/-- Entries after a dict assignment: the new pair, or an original entry. -/
theorem mem_dictSet (zs : Zones) (n : String) (g : ZoneGeometry) :
    ∀ e ∈ dictSet zs n g, e = (n, g) ∨ e ∈ zs := by
  induction zs with
  | nil => intro e he; simp [dictSet] at he; left; exact he
  | cons a rest ih =>
    obtain ⟨k, g'⟩ := a
    intro e he
    by_cases hk : k = n
    · subst hk
      simp [dictSet] at he
      rcases he with rfl | h2
      · left; rfl
      · right; exact List.mem_cons_of_mem _ h2
    · simp [dictSet, hk] at he
      rcases he with rfl | h2
      · right; exact List.mem_cons_self _ _
      · rcases ih e h2 with h | h
        · left; exact h
        · right; exact List.mem_cons_of_mem _ h

/-- The ZONE loop only creates entries with empty surface lists, so the
invariant holds of its output. -/
theorem buildZonesFrom_polysOk (rs : List ObjectRecord) :
    ∀ (zs : Zones), polysOk zs → ∀ z, buildZonesFrom zs rs = .ok z → polysOk z := by
  induction rs with
  | nil =>
    intro zs h z hz
    injection hz with h2
    rw [← h2]; exact h
  | cons a rest ih =>
    intro zs h z hz
    unfold buildZonesFrom at hz
    cases hd : decodeZone a with
    | error e => simp only [hd] at hz; exact Except.noConfusion hz
    | ok p =>
      obtain ⟨n, o⟩ := p
      simp only [hd] at hz
      refine ih _ ?_ z hz
      intro e he
      rcases mem_dictSet zs n ⟨o, []⟩ e he with rfl | hmem
      · intro p hp; simp at hp
      · exact h e hmem

/-- Appending a 4-vertex polygon preserves the invariant. -/
theorem zappendSurface_polysOk (zs : Zones) (n : String)
    (p4 : List (Rat × Rat × Rat)) (h : polysOk zs) (hl : p4.length = 4) :
    polysOk (zappendSurface zs n p4) := by
  intro e he
  obtain ⟨e0, he0, rfl⟩ := List.mem_map.mp he
  by_cases hk : e0.1 = n
  · simp only [hk, if_pos rfl, ite_true]
    intro p hp
    simp at hp
    rcases hp with h1 | h1
    · exact h e0 he0 p h1
    · rw [h1]; exact hl
  · simp only [if_neg hk]
    exact h e0 he0

/-- One surface-loop iteration preserves the invariant. -/
theorem processSurface_polysOk (zs : Zones) (s : ObjectRecord) (z : Zones)
    (h : polysOk zs) (hp : processSurface zs s = .ok z) : polysOk z := by
  unfold processSurface at hp
  cases h4 : pyIndexE s 4 with
  | error e => simp only [h4] at hp; exact Except.noConfusion hp
  | ok zn =>
    simp only [h4] at hp
    cases hk : (zlookup zs zn).isSome with
    | false =>
      simp only [hk, Bool.false_eq_true, if_false] at hp
      injection hp with h2; rw [← h2]; exact h
    | true =>
      simp only [hk, if_true] at hp
      cases hs : surfacePolygon s with
      | ok p =>
        simp only [hs] at hp
        injection hp with h2
        rw [← h2]
        exact zappendSurface_polysOk zs zn p h (surfacePolygon_length s p hs)
      | error e =>
        cases e
        · simp only [hs] at hp
          injection hp with h2; rw [← h2]; exact h
        · simp only [hs] at hp; exact Except.noConfusion hp

/-- The whole surface loop preserves the invariant. -/
theorem processSurfaces_polysOk (ss : List ObjectRecord) :
    ∀ (zs : Zones), polysOk zs → ∀ z, processSurfaces zs ss = .ok z → polysOk z := by
  induction ss with
  | nil =>
    intro zs h z hz
    injection hz with h2; rw [← h2]; exact h
  | cons a rest ih =>
    intro zs h z hz
    unfold processSurfaces at hz
    cases hp : processSurface zs a with
    | error e => simp only [hp] at hz; exact Except.noConfusion hz
    | ok zs' => simp only [hp] at hz; exact ih zs' (processSurface_polysOk zs a zs' h hp) z hz

/-- C8: every polygon in the output of `extract_zones` has exactly 4
vertices — the vertex-count field is located as the first field literally
equal to `"4"`, so the parsed count is always 4; and a surface record
containing no `"4"` field at all contributes nothing (the `index` call
raises `ValueError`, which is caught and the record skipped). -/
theorem extract_zones_polygons_four (m : ObjectMapping) (z : Zones)
    (h : extract_zones m = .ok z) :
    (∀ e ∈ z, ∀ p ∈ e.2.surfaces, p.length = 4) ∧
    (∀ (zs : Zones) (s : ObjectRecord) (zn : String),
      pyIndexE s 4 = .ok zn → pyListIndex s "4" = none →
      processSurface zs s = .ok zs) := by
  constructor
  · unfold extract_zones at h
    cases hb : buildZonesFrom [] (pyGet m "ZONE") with
    | error e => simp only [hb] at h; exact Except.noConfusion h
    | ok zb =>
      simp only [hb] at h
      have hz0 : polysOk zb :=
        buildZonesFrom_polysOk (pyGet m "ZONE") [] (by intro e he; simp at he) zb hb
      exact processSurfaces_polysOk (pyGet m "BUILDINGSURFACE:DETAILED") zb hz0 z h
  · intro zs s zn h4 hnone
    have hsf : surfacePolygon s = .error .valueError := by
      unfold surfacePolygon; rw [hnone]
    cases hk : (zlookup zs zn).isSome <;>
      simp [processSurface, h4, hk, hsf]

/-- C8, witness: a mapping with one well-formed quadrilateral surface. -/
theorem extract_zones_polygons_four_witness :
    (∀ e ∈ ([("Z1", ⟨(0, 0, 0),
        [[((0 : Rat), (0 : Rat), (0 : Rat)), (1, 0, 0), (1, 1, 0), (0, 1, 0)]]⟩)] : Zones),
      ∀ p ∈ e.2.surfaces, p.length = 4) ∧
    (∀ (zs : Zones) (s : ObjectRecord) (zn : String),
      pyIndexE s 4 = .ok zn → pyListIndex s "4" = none →
      processSurface zs s = .ok zs) :=
  extract_zones_polygons_four
    [("ZONE", [["ZONE", "Z1", "x", "0.0", "0.0", "0.0"]]),
     ("BUILDINGSURFACE:DETAILED",
      [["BUILDINGSURFACE:DETAILED", "S1", "Wall", "c", "Z1", "4",
        "0.0", "0.0", "0.0", "1.0", "0.0", "0.0", "1.0", "1.0", "0.0",
        "0.0", "1.0", "0.0"]])]
    [("Z1", ⟨(0, 0, 0), [[(0, 0, 0), (1, 0, 0), (1, 1, 0), (0, 1, 0)]]⟩)]
    (by decide)

/-- Assigning key `n` makes it the entry `zlookup` finds. -/
theorem zlookup_dictSet_self (zs : Zones) (n : String) (g : ZoneGeometry) :
    zlookup (dictSet zs n g) n = some g := by
  induction zs with
  | nil => simp [dictSet, zlookup]
  | cons a rest ih =>
    obtain ⟨k, g'⟩ := a
    by_cases hk : k = n <;> simp [dictSet, zlookup, hk, ih]

/-- The key list of the zone dict. -/
def keysNodup (zs : Zones) : Prop := (zs.map Prod.fst).Nodup

/-- Dict assignment leaves the key list unchanged when the key exists, and
appends it otherwise. -/
theorem dictSet_keys (zs : Zones) (n : String) (g : ZoneGeometry) :
    (dictSet zs n g).map Prod.fst =
      if zs.any (fun e => e.1 == n) then zs.map Prod.fst
      else zs.map Prod.fst ++ [n] := by
  induction zs with
  | nil => simp [dictSet]
  | cons a rest ih =>
    obtain ⟨k, g'⟩ := a
    by_cases hk : k = n
    · simp [dictSet, hk]
    · simp only [dictSet, if_neg hk, List.map_cons, List.any_cons, ih]
      have hbk : (k == n) = false := by simp [hk]
      rw [hbk]
      by_cases h2 : rest.any (fun e => e.1 == n) <;> simp [h2]

/-- When no entry carries key `n`, the count of `n`-keyed entries is 0. -/
theorem countP_key_zero (zs : Zones) (n : String)
    (h : n ∉ zs.map Prod.fst) : zs.countP (fun e => e.1 == n) = 0 := by
  rw [List.countP_eq_zero]
  intro e he hbe
  exact h (List.mem_map.mpr ⟨e, he, by simpa using hbe⟩)

/-- When keys are unique, a dict assignment leaves exactly one entry with
the assigned key. -/
theorem dictSet_countP_one (zs : Zones) (n : String) (g : ZoneGeometry)
    (hnd : keysNodup zs) : (dictSet zs n g).countP (fun e => e.1 == n) = 1 := by
  induction zs with
  | nil => simp [dictSet, List.countP_cons]
  | cons a rest ih =>
    obtain ⟨k, g'⟩ := a
    unfold keysNodup at hnd
    simp only [List.map_cons, List.nodup_cons] at hnd
    by_cases hk : k = n
    · subst hk
      simp only [dictSet, if_pos rfl, List.countP_cons]
      have h0 : rest.countP (fun e => e.1 == k) = 0 :=
        countP_key_zero rest k hnd.1
      simp [h0]
    · simp only [dictSet, if_neg hk, List.countP_cons]
      have hbk : (k == n) = false := by simp [hk]
      simp [hbk, ih hnd.2]

/-- Dict assignment preserves key uniqueness. -/
theorem dictSet_keysNodup (zs : Zones) (n : String) (g : ZoneGeometry)
    (hnd : keysNodup zs) : keysNodup (dictSet zs n g) := by
  unfold keysNodup at hnd ⊢
  rw [dictSet_keys]
  by_cases ha : zs.any (fun e => e.1 == n)
  · simpa [ha] using hnd
  · rw [if_neg ha]
    refine hnd.append (List.nodup_singleton n) ?_
    intro a hmem hmem1
    simp at hmem1
    subst hmem1
    obtain ⟨e, he, hkey⟩ := List.mem_map.mp hmem
    exact ha (List.any_eq_true.mpr ⟨e, he, by simp [hkey]⟩)

/-- The ZONE loop keeps keys unique. -/
theorem buildZonesFrom_keysNodup (rs : List ObjectRecord) :
    ∀ (zs : Zones), keysNodup zs → ∀ z, buildZonesFrom zs rs = .ok z → keysNodup z := by
  induction rs with
  | nil =>
    intro zs h z hz
    injection hz with h2; rw [← h2]; exact h
  | cons a rest ih =>
    intro zs h z hz
    unfold buildZonesFrom at hz
    cases hd : decodeZone a with
    | error e => simp only [hd] at hz; exact Except.noConfusion hz
    | ok p =>
      obtain ⟨n, o⟩ := p
      simp only [hd] at hz
      exact ih _ (dictSet_keysNodup zs n ⟨o, []⟩ h) z hz

/-- The ZONE loop over `l ++ [r]`: run `l`, then apply `r`'s assignment. -/
theorem buildZonesFrom_append (l : List ObjectRecord) (r : ObjectRecord) :
    ∀ zs, buildZonesFrom zs (l ++ [r]) =
      match buildZonesFrom zs l with
      | .error e => .error e
      | .ok zm =>
        match decodeZone r with
        | .error e => .error e
        | .ok (n, o) => .ok (dictSet zm n ⟨o, []⟩) := by
  induction l with
  | nil =>
    intro zs
    simp only [List.nil_append, buildZonesFrom]
  | cons a rest ih =>
    intro zs
    simp only [List.cons_append, buildZonesFrom]
    cases hd : decodeZone a with
    | error e => rfl
    | ok p => obtain ⟨n, o⟩ := p; exact ih _

/-- C9: when the last ZONE record of the mapping re-declares the name `n`,
the output of `extract_zones` (here: with no surface records) succeeds, has
exactly one entry for `n`, and that entry's origin is the last record's —
earlier same-name records are silently overwritten and the duplicate
raises no error. -/
theorem extract_zones_duplicate_zone_last_wins (m : ObjectMapping)
    (l : List ObjectRecord) (r : ObjectRecord) (n : String)
    (o : Rat × Rat × Rat) (zm0 : Zones)
    (hz : pyGet m "ZONE" = l ++ [r])
    (hl : buildZonesFrom [] l = .ok zm0)
    (hr : decodeZone r = .ok (n, o))
    (hs : pyGet m "BUILDINGSURFACE:DETAILED" = []) :
    ∃ zm, extract_zones m = .ok zm ∧
      zlookup zm n = some ⟨o, []⟩ ∧
      zm.countP (fun e => e.1 == n) = 1 := by
  have hb : buildZonesFrom [] (pyGet m "ZONE") = .ok (dictSet zm0 n ⟨o, []⟩) := by
    rw [hz, buildZonesFrom_append]
    simp only [hl, hr]
  refine ⟨dictSet zm0 n ⟨o, []⟩, ?_, zlookup_dictSet_self zm0 n ⟨o, []⟩, ?_⟩
  · unfold extract_zones
    rw [hb, hs]
    rfl
  · exact dictSet_countP_one zm0 n ⟨o, []⟩
      (buildZonesFrom_keysNodup l [] (by simp [keysNodup]) zm0 hl)

/-- C9, witness: two ZONE records both named `Z1`; the second one's origin
wins. -/
theorem extract_zones_duplicate_zone_last_wins_witness :
    ∃ zm, extract_zones
        [("ZONE", [["ZONE", "Z1", "x", "1.0", "0.0", "0.0"],
                   ["ZONE", "Z1", "x", "5.0", "6.0", "7.0"]])] = .ok zm ∧
      zlookup zm "Z1" = some ⟨(5, 6, 7), []⟩ ∧
      zm.countP (fun e => e.1 == "Z1") = 1 :=
  extract_zones_duplicate_zone_last_wins
    [("ZONE", [["ZONE", "Z1", "x", "1.0", "0.0", "0.0"],
               ["ZONE", "Z1", "x", "5.0", "6.0", "7.0"]])]
    [["ZONE", "Z1", "x", "1.0", "0.0", "0.0"]]
    ["ZONE", "Z1", "x", "5.0", "6.0", "7.0"] "Z1" (5, 6, 7)
    [("Z1", ⟨(1, 0, 0), []⟩)]
    (by decide) (by decide) (by decide) (by decide)

end ParseIdf
